import Mathlib

/-!
Verification of the folder-based URL ingestion core of AutomatedFanfic
(`url_ingester.py`): the extractor `FolderWatcherInfo.get_urls`, the
dispatcher inside `folder_watcher`, and the watcher loop, together with
`FolderWatcherInfo.__init__`.

The filesystem is modelled as the list of `*.url` files the glob returns,
each carrying the outcome of reading it (`content = none` models a read
that raises) and of unlinking it (`unlinkOk = false` models an unlink that
raises).  Queue sinks are identified by natural numbers; the destination
dictionary is an association list whose stored value may itself be `none`,
modelling a falsy value such as Python `None` stored under a present key.
The external classifier `regex_parsing.generate_FanficInfo_from_url` is a
parameter of type `String → Option FanficInfo`, `none` modelling a raised
exception.  Side effects of one poll cycle are recorded as an ordered
trace of events.
-/

/-- One file produced by the `*.url` glob.  `content = none` models a read
that raises an exception; `unlinkOk = false` models an `unlink` call that
raises. -/
structure FileEntry where
  name : String
  content : Option String
  unlinkOk : Bool
deriving DecidableEq

/-- Embedding of Python `str.strip()`: drop whitespace from both ends.
Written over the character list so that it evaluates by kernel
reduction. -/
def stripStr (s : String) : String :=
  ⟨((s.data.dropWhile Char.isWhitespace).reverse.dropWhile
      Char.isWhitespace).reverse⟩

/-- The URL a file contributes to the returned list, if any: the trimmed
content when the read succeeds and the trimmed content is non-empty
(`url = f.read().strip()`; `if url: urls.append(url)`). -/
def fileUrl (f : FileEntry) : Option String :=
  match f.content with
  | none => none
  | some c => if stripStr c = "" then none else some (stripStr c)

/-- Whether a file survives the scan: a file whose read raises is kept
(the `except` branch skips the `unlink`), and a file whose read succeeds
is kept exactly when its `unlink` raises; the `unlink` runs regardless of
whether the trimmed content was empty. -/
def fileKept (f : FileEntry) : Bool :=
  match f.content with
  | none => true
  | some _ => !f.unlinkOk

/-- Embedding of `FolderWatcherInfo.get_urls`: fold over the globbed
files in order, returning the collected URL list and the files left in
the folder.  For each file: a failing read keeps the file and contributes
nothing; a successful read appends the trimmed content when non-empty and
then attempts the unlink, keeping the file only when the unlink raises. -/
def get_urls (files : List FileEntry) : List String × List FileEntry :=
  files.foldl
    (fun acc f =>
      match f.content with
      | none => (acc.1, acc.2 ++ [f])
      | some c =>
        let url := stripStr c
        let urls := if url = "" then acc.1 else acc.1 ++ [url]
        if f.unlinkOk then (urls, acc.2) else (urls, acc.2 ++ [f]))
    ([], [])

/-- A file whose read and unlink both succeed and whose trimmed content
is non-empty. -/
def validFile (f : FileEntry) : Bool :=
  (fileUrl f).isSome && f.unlinkOk

/-- Result of `regex_parsing.generate_FanficInfo_from_url`: the classified
site and the normalized URL. -/
structure FanficInfo where
  site : String
  url : String
deriving DecidableEq

/-- The destination dictionary: keys are site names, and a stored value of
`none` models a falsy value (such as Python `None`) held under a present
key, while `some q` is a genuine queue sink identified by `q`. -/
abbrev Queues := List (String × Option Nat)

/-- Embedding of Python `queues.get(k)`: `none` when the key is absent,
otherwise the stored value (which may itself model a falsy value). -/
def qget (qs : Queues) (k : String) : Option (Option Nat) :=
  match qs with
  | [] => none
  | (k2, v) :: rest => if k2 = k then some v else qget rest k

/-- The truthiness test the code applies to a `queues.get` result: a queue
is obtained only when the key is present and its stored value is truthy. -/
def qtruthy (qs : Queues) (k : String) : Option Nat :=
  match qget qs k with
  | some (some q) => some q
  | _ => none

/-- Embedding of the queue-selection sequence
`target_queue = queues.get(fanfic.site)`,
`if not target_queue: target_queue = queues.get("other")`. -/
def route (qs : Queues) (site : String) : Option Nat :=
  match qtruthy qs site with
  | some q => some q
  | none => qtruthy qs "other"

/-- One observable side effect of dispatching a URL, in the order
performed.  `logDropError` is the `except` branch logging
`Error processing URL`; `logDropNoQueue` is the
`No queue available for site` log; `logCycleError` is the outer
`Error in folder watcher loop` log. -/
inductive Event where
  | notified (title body tag : String)
  | enqueued (q : Nat) (item : FanficInfo)
  | logDropError (url : String)
  | logDropNoQueue (site : String)
  | logCycleError
deriving DecidableEq

/-- Delivery events: the notifier invocation and the queue enqueue. -/
def isDelivery (e : Event) : Bool :=
  match e with
  | Event.notified _ _ _ => true
  | Event.enqueued _ _ => true
  | _ => false

/-- Embedding of the body of the per-URL loop in `folder_watcher`:
classify the URL (a raised exception is caught and logged); when the site
is `"ffnet"` and `ffnet_disable` is set, send a notification when a
notifier handle is present and continue to the next URL; otherwise select
a queue by truthiness with `"other"` as fallback, enqueue when one was
found and log the drop when none was. -/
def dispatch_events (ffnetD hasN : Bool) (qs : Queues)
    (cls : String → Option FanficInfo) (url : String) : List Event :=
  match cls url with
  | none => [Event.logDropError url]
  | some fanfic =>
    if fanfic.site = "ffnet" ∧ ffnetD = true then
      if hasN then
        [Event.notified "New Fanfiction Download" fanfic.url fanfic.site]
      else []
    else
      match route qs fanfic.site with
      | some q => [Event.enqueued q fanfic]
      | none => [Event.logDropNoQueue fanfic.site]

/-- The side-effect trace of the `for url in urls` loop of one poll
cycle, accumulated left to right. -/
def cycle_trace (ffnetD hasN : Bool) (qs : Queues)
    (cls : String → Option FanficInfo) (urls : List String) : List Event :=
  urls.foldl (fun tr url => tr ++ dispatch_events ffnetD hasN qs cls url) []

/-- The per-URL loop body with fallible external sinks: the inner
`except` at the bottom of the loop body also catches an exception raised
by `notification_info.send_notification` (modelled by
`notifyOk = false`) or by `target_queue.put` (modelled by
`putOk q = false`), logging `Error processing URL` and moving on to the
next URL.  With `notifyOk = true` and `putOk` constantly `true` this
coincides with `dispatch_events`. -/
def dispatch_events_f (ffnetD hasN notifyOk : Bool) (putOk : Nat → Bool)
    (qs : Queues) (cls : String → Option FanficInfo) (url : String) :
    List Event :=
  match cls url with
  | none => [Event.logDropError url]
  | some fanfic =>
    if fanfic.site = "ffnet" ∧ ffnetD = true then
      if hasN then
        if notifyOk then
          [Event.notified "New Fanfiction Download" fanfic.url fanfic.site]
        else [Event.logDropError url]
      else []
    else
      match route qs fanfic.site with
      | some q =>
        if putOk q then [Event.enqueued q fanfic]
        else [Event.logDropError url]
      | none => [Event.logDropNoQueue fanfic.site]

/-- The cycle trace over the fallible-sink loop body. -/
def cycle_trace_f (ffnetD hasN notifyOk : Bool) (putOk : Nat → Bool)
    (qs : Queues) (cls : String → Option FanficInfo)
    (urls : List String) : List Event :=
  urls.foldl
    (fun tr url => tr ++ dispatch_events_f ffnetD hasN notifyOk putOk qs cls url)
    []

/-- One iteration of the `while True` loop: a raised exception at the
cycle level (modelled as `Except.error`) is caught and logged and the
batch produces no dispatch events; a successful extraction dispatches
every URL of the batch. -/
def watcher_cycle (ffnetD hasN : Bool) (qs : Queues)
    (cls : String → Option FanficInfo)
    (ext : Except Unit (List String)) : List Event :=
  match ext with
  | Except.error _ => [Event.logCycleError]
  | Except.ok urls => cycle_trace ffnetD hasN qs cls urls

/-- The watcher loop unrolled over a finite stream of per-cycle
extraction results: every cycle completes (reaches the sleep) and the
loop proceeds to the next element of the stream. -/
def folder_watcher_run (ffnetD hasN : Bool) (qs : Queues)
    (cls : String → Option FanficInfo) :
    List (Except Unit (List String)) → List (List Event)
  | [] => []
  | ext :: rest =>
    watcher_cycle ffnetD hasN qs cls ext ::
      folder_watcher_run ffnetD hasN qs cls rest

/-- The `[folder_watcher]` section of a successfully loaded
configuration. -/
structure FWConfig where
  folder_path : String
  sleep_time : Nat
  ffnet_disable : Bool
deriving DecidableEq

/-- The fields `FolderWatcherInfo.__init__` stores. -/
structure FolderWatcherInfo where
  folder_path : String
  sleep_time : Nat
  ffnet_disable : Bool
deriving DecidableEq

/-- The filesystem state relevant to construction: the set of existing
directories, each as its list of path components. -/
structure FWState where
  dirs : List (List String)
deriving DecidableEq

/-- Non-empty components of a path string. -/
def pathComponents (p : String) : List String :=
  (p.splitOn "/").filter (fun s => s ≠ "")

/-- The chain of directories `mkdir(parents=True)` ensures exist: every
non-empty prefix of the component list. -/
def dirPrefixes (cs : List String) : List (List String) :=
  (List.range cs.length).map (fun i => cs.take (i + 1))

/-- Create one directory if it does not already exist. -/
def insertDir (ds : List (List String)) (d : List String) : List (List String) :=
  if d ∈ ds then ds else ds ++ [d]

/-- Embedding of `Path(p).mkdir(parents=True, exist_ok=True)`: create the
directory and its ancestors, never failing when they already exist. -/
def mkdir_parents (st : FWState) (p : String) : FWState :=
  ⟨(dirPrefixes (pathComponents p)).foldl insertDir st.dirs⟩

/-- Embedding of `FolderWatcherInfo.__init__` after a successful config
load: store the three fields, raise `ValueError` when the folder path is
falsy (the empty string), and otherwise create the folder with parents,
tolerating existing directories.  The returned state is the filesystem
after construction; on the error path `mkdir` is never reached. -/
def FolderWatcherInfo.init (cfg : FWConfig) (st : FWState) :
    Except String FolderWatcherInfo × FWState :=
  if cfg.folder_path = "" then
    (Except.error "folder_path must be specified in configuration", st)
  else
    (Except.ok ⟨cfg.folder_path, cfg.sleep_time, cfg.ffnet_disable⟩,
      mkdir_parents st cfg.folder_path)

theorem get_urls_go (files : List FileEntry) (us : List String) (rs : List FileEntry) :
    files.foldl
      (fun acc f =>
        match f.content with
        | none => (acc.1, acc.2 ++ [f])
        | some c =>
          let url := stripStr c
          let urls := if url = "" then acc.1 else acc.1 ++ [url]
          if f.unlinkOk then (urls, acc.2) else (urls, acc.2 ++ [f]))
      (us, rs)
    = (us ++ files.filterMap fileUrl, rs ++ files.filter fileKept) := by
  induction files generalizing us rs with
  | nil => simp
  | cons f fs ih =>
    cases hc : f.content with
    | none =>
      simp only [List.foldl_cons, hc, ih, List.filterMap_cons, List.filter_cons,
        fileUrl, fileKept, hc]
      simp
    | some c =>
      by_cases htrim : stripStr c = "" <;> by_cases hu : f.unlinkOk <;>
        simp [List.foldl_cons, hc, ih, List.filterMap_cons, List.filter_cons,
          fileUrl, fileKept, htrim, hu]

/-- Characterization of the extractor: the returned URLs are exactly the
per-file contributions in scan order, and the surviving files are exactly
those kept by their own outcome. -/
theorem get_urls_eq (files : List FileEntry) :
    get_urls files = (files.filterMap fileUrl, files.filter fileKept) := by
  have h := get_urls_go files [] []
  simpa [get_urls] using h

theorem cycle_trace_go (ffnetD hasN : Bool) (qs : Queues)
    (cls : String → Option FanficInfo) (urls : List String) (tr : List Event) :
    urls.foldl (fun tr url => tr ++ dispatch_events ffnetD hasN qs cls url) tr
      = tr ++ urls.flatMap (dispatch_events ffnetD hasN qs cls) := by
  induction urls generalizing tr with
  | nil => simp
  | cons u us ih => simp [ih]

/-- The cycle trace is the concatenation of the per-URL event blocks in
batch order. -/
theorem cycle_trace_eq (ffnetD hasN : Bool) (qs : Queues)
    (cls : String → Option FanficInfo) (urls : List String) :
    cycle_trace ffnetD hasN qs cls urls
      = urls.flatMap (dispatch_events ffnetD hasN qs cls) := by
  have h := cycle_trace_go ffnetD hasN qs cls urls []
  simpa [cycle_trace] using h

/-- With sinks that never raise, the fallible-sink loop body coincides
with `dispatch_events`. -/
theorem dispatch_events_f_ok (ffnetD hasN : Bool) (qs : Queues)
    (cls : String → Option FanficInfo) (url : String) :
    dispatch_events_f ffnetD hasN true (fun _ => true) qs cls url
      = dispatch_events ffnetD hasN qs cls url := by
  cases hcls : cls url with
  | none => simp [dispatch_events_f, dispatch_events, hcls]
  | some f =>
    by_cases hov : f.site = "ffnet" ∧ ffnetD = true
    · cases hN : hasN <;>
        simp [dispatch_events_f, dispatch_events, hcls, hov]
    · cases hr : route qs f.site <;>
        simp [dispatch_events_f, dispatch_events, hcls, if_neg hov, hr]

theorem cycle_trace_f_go (ffnetD hasN notifyOk : Bool) (putOk : Nat → Bool)
    (qs : Queues) (cls : String → Option FanficInfo)
    (urls : List String) (tr : List Event) :
    urls.foldl
      (fun tr url =>
        tr ++ dispatch_events_f ffnetD hasN notifyOk putOk qs cls url) tr
      = tr ++ urls.flatMap (dispatch_events_f ffnetD hasN notifyOk putOk qs cls) := by
  induction urls generalizing tr with
  | nil => simp
  | cons u us ih => simp [ih]

/-- The fallible-sink cycle trace is the concatenation of the per-URL
event blocks in batch order. -/
theorem cycle_trace_f_eq (ffnetD hasN notifyOk : Bool) (putOk : Nat → Bool)
    (qs : Queues) (cls : String → Option FanficInfo) (urls : List String) :
    cycle_trace_f ffnetD hasN notifyOk putOk qs cls urls
      = urls.flatMap (dispatch_events_f ffnetD hasN notifyOk putOk qs cls) := by
  have h := cycle_trace_f_go ffnetD hasN notifyOk putOk qs cls urls []
  simpa [cycle_trace_f] using h

theorem insertDir_mem (ds : List (List String)) (d : List String) :
    d ∈ insertDir ds d := by
  unfold insertDir
  by_cases h : d ∈ ds <;> simp [h]

theorem insertDir_mono (ds : List (List String)) (d e : List String)
    (h : e ∈ ds) : e ∈ insertDir ds d := by
  unfold insertDir
  by_cases hd : d ∈ ds <;> simp [hd, h]

theorem insertDir_of_mem (ds : List (List String)) (d : List String)
    (h : d ∈ ds) : insertDir ds d = ds := by
  simp [insertDir, h]

theorem foldl_insertDir_mono (l : List (List String))
    (ds : List (List String)) (e : List String) (h : e ∈ ds) :
    e ∈ l.foldl insertDir ds := by
  induction l generalizing ds with
  | nil => simpa using h
  | cons d rest ih => exact ih (insertDir ds d) (insertDir_mono ds d e h)

theorem foldl_insertDir_mem (l : List (List String))
    (ds : List (List String)) (e : List String) (h : e ∈ l) :
    e ∈ l.foldl insertDir ds := by
  induction l generalizing ds with
  | nil => cases h
  | cons d rest ih =>
    rcases List.mem_cons.mp h with he | he
    · subst he
      exact foldl_insertDir_mono rest (insertDir ds e) e (insertDir_mem ds e)
    · exact ih (insertDir ds d) he

theorem foldl_insertDir_of_subset (l : List (List String))
    (ds : List (List String)) (h : ∀ d ∈ l, d ∈ ds) :
    l.foldl insertDir ds = ds := by
  induction l with
  | nil => rfl
  | cons d rest ih =>
    have hd : d ∈ ds := h d (List.mem_cons_self d rest)
    rw [List.foldl_cons, insertDir_of_mem ds d hd]
    exact ih (fun e he => h e (List.mem_cons_of_mem d he))

/-- `mkdir -p` is idempotent on the filesystem state. -/
theorem mkdir_parents_idem (st : FWState) (p : String) :
    mkdir_parents (mkdir_parents st p) p = mkdir_parents st p := by
  unfold mkdir_parents
  exact congrArg FWState.mk
    (foldl_insertDir_of_subset _ _
      (fun d hd => foldl_insertDir_mem _ st.dirs d hd))

/-- After `mkdir -p`, the directory and all its ancestors exist. -/
theorem mkdir_parents_creates (st : FWState) (p : String) :
    ∀ d ∈ dirPrefixes (pathComponents p), d ∈ (mkdir_parents st p).dirs :=
  fun d hd => foldl_insertDir_mem _ st.dirs d hd

/-- Claim C1 as stated is false on the code: a file whose content is only
whitespace is read successfully, contributes no URL, and is nevertheless
deleted, because `url_file.unlink()` runs outside the `if url:` guard.
Here the folder holds one file whose content is three spaces and whose
read and unlink both succeed: `get_urls` returns no URL and an empty
folder, while the claim requires the file to remain. -/
theorem claim_C1_counterexample :
    get_urls [FileEntry.mk "w.url" (some "   ") true] = ([], []) ∧
    stripStr "   " = "" ∧
    get_urls [FileEntry.mk "w.url" (some "   ") true]
      ≠ ([], [FileEntry.mk "w.url" (some "   ") true]) := by
  refine ⟨by decide, by decide, by decide⟩

/-- Claim C1, amended to the code: a file is deleted iff its read and its
delete both succeed, regardless of whether the trimmed content is empty
(a whitespace-only file is deleted and contributes no URL); a file whose
read raises is left in place and contributes no URL; a file whose delete
raises is left in place but, when its trimmed content is non-empty, its
URL is still contributed, since the append precedes the unlink.  A URL is
contributed iff the read succeeds and the trimmed content is
non-empty. -/
theorem spec_C1_amended : ∀ fs : List FileEntry,
    (get_urls fs).2 = fs.filter fileKept ∧
    (get_urls fs).1 = fs.filterMap fileUrl ∧
    (∀ f : FileEntry,
      fileKept f = false ↔ (∃ c, f.content = some c) ∧ f.unlinkOk = true) ∧
    (∀ f : FileEntry,
      (∃ u, fileUrl f = some u) ↔ ∃ c, f.content = some c ∧ stripStr c ≠ "") := by
  intro fs
  refine ⟨(get_urls_eq fs).symm ▸ rfl, (get_urls_eq fs).symm ▸ rfl, ?_, ?_⟩
  · intro f
    cases hc : f.content with
    | none => simp [fileKept, hc]
    | some c => cases hu : f.unlinkOk <;> simp [fileKept, hc, hu]
  · intro f
    cases hc : f.content with
    | none => simp [fileUrl, hc]
    | some c =>
      by_cases ht : stripStr c = "" <;> simp [fileUrl, hc, ht]

theorem get_urls_all_valid (fs : List FileEntry)
    (h : ∀ f ∈ fs, validFile f = true) :
    (fs.filterMap fileUrl).length = fs.length ∧ fs.filter fileKept = [] := by
  induction fs with
  | nil => simp
  | cons f rest ih =>
    have hf : validFile f = true := h f (List.mem_cons_self f rest)
    have hrest := ih (fun g hg => h g (List.mem_cons_of_mem f hg))
    have hf2 : (fileUrl f).isSome = true ∧ f.unlinkOk = true := by
      simpa [validFile] using hf
    have hsome : (fileUrl f).isSome = true := hf2.1
    have hu : f.unlinkOk = true := hf2.2
    obtain ⟨u, hfu⟩ := Option.isSome_iff_exists.mp hsome
    have hc : ∃ c, f.content = some c := by
      cases hcc : f.content with
      | none => rw [fileUrl, hcc] at hfu; cases hfu
      | some c => exact ⟨c, rfl⟩
    obtain ⟨c, hcc⟩ := hc
    have hk : fileKept f = false := by simp [fileKept, hcc, hu]
    simp [List.filterMap_cons, hfu, List.filter_cons, hk, hrest.1, hrest.2]

/-- Claim C5: on a folder of N files whose reads succeed, whose trimmed
contents are non-empty and whose unlinks succeed, one `get_urls` pass
returns exactly N URLs and leaves no `.url` file behind, and a second
pass on the resulting folder state returns the empty list. -/
theorem spec_C5 : ∀ fs : List FileEntry,
    (∀ f ∈ fs, validFile f = true) →
    (get_urls fs).1.length = fs.length ∧
    (get_urls fs).2 = [] ∧
    get_urls ((get_urls fs).2) = ([], []) := by
  intro fs h
  have hv := get_urls_all_valid fs h
  have he := get_urls_eq fs
  refine ⟨?_, ?_, ?_⟩
  · rw [he]; exact hv.1
  · rw [he]; exact hv.2
  · rw [he]; simpa [get_urls] using congrArg get_urls hv.2

theorem spec_C5_witness :
    (∀ f ∈ [FileEntry.mk "a.url" (some "https://archiveofourown.org/works/123") true,
            FileEntry.mk "b.url" (some " https://www.fanfiction.net/s/456 ") true],
      validFile f = true) ∧
    (get_urls [FileEntry.mk "a.url" (some "https://archiveofourown.org/works/123") true,
               FileEntry.mk "b.url" (some " https://www.fanfiction.net/s/456 ") true]).1.length
      = 2 ∧
    (get_urls [FileEntry.mk "a.url" (some "https://archiveofourown.org/works/123") true,
               FileEntry.mk "b.url" (some " https://www.fanfiction.net/s/456 ") true]).2
      = [] :=
  ⟨by decide,
    (spec_C5 _ (by decide)).1,
    (spec_C5 [FileEntry.mk "a.url" (some "https://archiveofourown.org/works/123") true,
              FileEntry.mk "b.url" (some " https://www.fanfiction.net/s/456 ") true]
      (by decide)).2.1⟩

/-- Claim C6: the outcome of each file and each URL is independent of
the failures of the others.  For the scan: a file whose read raises
contributes no URL and is kept, and a file whose delete raises is kept
while still making its own (possibly empty) URL contribution — in both
cases the URLs and survivors of the surrounding files are exactly those
they produce on their own.  For the cycle: the trace decomposes into
per-URL event blocks with the surrounding blocks independent of the
middle URL whatever its outcome, and the URL whose classification
raises, whose notification raises, or whose enqueue raises occupies its
slot with exactly the caught-and-logged error. -/
theorem spec_C6 : ∀ (ffnetD hasN notifyOk : Bool) (putOk : Nat → Bool)
    (qs : Queues) (cls : String → Option FanficInfo)
    (a b : List FileEntry) (f : FileEntry)
    (us vs : List String) (u : String),
    (f.content = none →
      (get_urls (a ++ f :: b)).1 = (get_urls a).1 ++ (get_urls b).1 ∧
      (get_urls (a ++ f :: b)).2 = (get_urls a).2 ++ f :: (get_urls b).2) ∧
    (f.unlinkOk = false →
      (get_urls (a ++ f :: b)).1
        = (get_urls a).1 ++ (fileUrl f).toList ++ (get_urls b).1 ∧
      (get_urls (a ++ f :: b)).2 = (get_urls a).2 ++ f :: (get_urls b).2) ∧
    cycle_trace_f ffnetD hasN notifyOk putOk qs cls (us ++ u :: vs)
      = cycle_trace_f ffnetD hasN notifyOk putOk qs cls us
          ++ dispatch_events_f ffnetD hasN notifyOk putOk qs cls u
          ++ cycle_trace_f ffnetD hasN notifyOk putOk qs cls vs ∧
    (cls u = none →
      dispatch_events_f ffnetD hasN notifyOk putOk qs cls u
        = [Event.logDropError u]) ∧
    (∀ f2 : FanficInfo, cls u = some f2 → f2.site = "ffnet" →
      ffnetD = true → hasN = true → notifyOk = false →
      dispatch_events_f ffnetD hasN notifyOk putOk qs cls u
        = [Event.logDropError u]) ∧
    (∀ (f2 : FanficInfo) (q : Nat), cls u = some f2 →
      ¬(f2.site = "ffnet" ∧ ffnetD = true) → route qs f2.site = some q →
      putOk q = false →
      dispatch_events_f ffnetD hasN notifyOk putOk qs cls u
        = [Event.logDropError u]) := by
  intro ffnetD hasN notifyOk putOk qs cls a b f us vs u
  refine ⟨?_, ?_, ?_, ?_, ?_, ?_⟩
  · intro hf
    have hurl : fileUrl f = none := by simp [fileUrl, hf]
    have hkept : fileKept f = true := by simp [fileKept, hf]
    constructor
    · simp [get_urls_eq, List.filterMap_append, List.filterMap_cons, hurl]
    · simp [get_urls_eq, List.filter_append, List.filter_cons, hkept]
  · intro hul
    have hkept : fileKept f = true := by
      cases hc : f.content with
      | none => simp [fileKept, hc]
      | some c => simp [fileKept, hc, hul]
    constructor
    · cases hurl : fileUrl f with
      | none =>
        simp [get_urls_eq, List.filterMap_append, List.filterMap_cons, hurl]
      | some w =>
        simp [get_urls_eq, List.filterMap_append, List.filterMap_cons, hurl]
    · simp [get_urls_eq, List.filter_append, List.filter_cons, hkept]
  · simp [cycle_trace_f_eq, List.flatMap_append, List.flatMap_cons]
  · intro hu
    simp [dispatch_events_f, hu]
  · intro f2 hu hsite hffD hN hnot
    subst hffD hN hnot
    simp [dispatch_events_f, hu, hsite]
  · intro f2 q hu hov hr hput
    simp [dispatch_events_f, hu, if_neg hov, hr, hput]

theorem spec_C6_witness :
    ((get_urls ([FileEntry.mk "a.url" (some "https://x") true]
        ++ FileEntry.mk "bad.url" none false
          :: [FileEntry.mk "b.url" (some "https://y") true])).1
      = (get_urls [FileEntry.mk "a.url" (some "https://x") true]).1
          ++ (get_urls [FileEntry.mk "b.url" (some "https://y") true]).1 ∧
     (get_urls ([FileEntry.mk "a.url" (some "https://x") true]
        ++ FileEntry.mk "bad.url" none false
          :: [FileEntry.mk "b.url" (some "https://y") true])).2
      = (get_urls [FileEntry.mk "a.url" (some "https://x") true]).2
          ++ FileEntry.mk "bad.url" none false
            :: (get_urls [FileEntry.mk "b.url" (some "https://y") true]).2) ∧
    ((get_urls ([FileEntry.mk "a.url" (some "https://x") true]
        ++ FileEntry.mk "c.url" (some "https://z") false
          :: [FileEntry.mk "b.url" (some "https://y") true])).1
      = (get_urls [FileEntry.mk "a.url" (some "https://x") true]).1
          ++ (fileUrl (FileEntry.mk "c.url" (some "https://z") false)).toList
          ++ (get_urls [FileEntry.mk "b.url" (some "https://y") true]).1) ∧
    cycle_trace_f false false true (fun _ => true) [] (fun _ => none)
        (["u1"] ++ "u0" :: ["u2"])
      = cycle_trace_f false false true (fun _ => true) [] (fun _ => none) ["u1"]
          ++ dispatch_events_f false false true (fun _ => true) [] (fun _ => none) "u0"
          ++ cycle_trace_f false false true (fun _ => true) [] (fun _ => none) ["u2"] ∧
    dispatch_events_f false false true (fun _ => true) [] (fun _ => none) "u0"
      = [Event.logDropError "u0"] ∧
    dispatch_events_f true true false (fun _ => true) []
        (fun u => some (FanficInfo.mk "ffnet" u)) "u3"
      = [Event.logDropError "u3"] ∧
    dispatch_events_f false true true (fun _ => false) [("siteA", some 3)]
        (fun u => some (FanficInfo.mk "siteA" u)) "u4"
      = [Event.logDropError "u4"] :=
  ⟨(spec_C6 false false true (fun _ => true) [] (fun _ => none)
      [FileEntry.mk "a.url" (some "https://x") true]
      [FileEntry.mk "b.url" (some "https://y") true]
      (FileEntry.mk "bad.url" none false)
      ["u1"] ["u2"] "u0").1 rfl,
    ((spec_C6 false false true (fun _ => true) [] (fun _ => none)
      [FileEntry.mk "a.url" (some "https://x") true]
      [FileEntry.mk "b.url" (some "https://y") true]
      (FileEntry.mk "c.url" (some "https://z") false)
      ["u1"] ["u2"] "u0").2.1 rfl).1,
    (spec_C6 false false true (fun _ => true) [] (fun _ => none)
      [FileEntry.mk "a.url" (some "https://x") true]
      [FileEntry.mk "b.url" (some "https://y") true]
      (FileEntry.mk "bad.url" none false)
      ["u1"] ["u2"] "u0").2.2.1,
    (spec_C6 false false true (fun _ => true) [] (fun _ => none)
      [FileEntry.mk "a.url" (some "https://x") true]
      [FileEntry.mk "b.url" (some "https://y") true]
      (FileEntry.mk "bad.url" none false)
      ["u1"] ["u2"] "u0").2.2.2.1 rfl,
    (spec_C6 true true false (fun _ => true) []
      (fun u => some (FanficInfo.mk "ffnet" u))
      [] [] (FileEntry.mk "d.url" none true) [] [] "u3").2.2.2.2.1
      (FanficInfo.mk "ffnet" "u3") rfl rfl rfl rfl rfl,
    (spec_C6 false true true (fun _ => false) [("siteA", some 3)]
      (fun u => some (FanficInfo.mk "siteA" u))
      [] [] (FileEntry.mk "d.url" none true) [] [] "u4").2.2.2.2.2
      (FanficInfo.mk "siteA" "u4") 3 rfl (by decide) (by decide) rfl⟩

/-- Claim C2 as stated is false on the code: when the classified site is
`"ffnet"`, `ffnet_disable` is set and the notifier handle is falsy, the
loop body just executes `continue` — no notification, no enqueue, and no
log of the drop — even though a queue for `"ffnet"` exists.  The trace of
that item is empty: zero of the three permitted outcomes occur. -/
theorem claim_C2_counterexample :
    dispatch_events true false [("ffnet", some 0)]
      (fun u => some (FanficInfo.mk "ffnet" u))
      "https://www.fanfiction.net/s/1" = [] := by
  decide

/-- Claim C2, amended to the code: per URL, at most one of
{notifier invocation, queue enqueue, logged drop} occurs, and exactly one
occurs unless the classified site is `"ffnet"`, the disable flag is set
and no notifier handle is present, in which case the item is skipped with
no side effect at all. -/
theorem spec_C2_amended : ∀ (ffnetD hasN : Bool) (qs : Queues)
    (cls : String → Option FanficInfo) (url : String),
    ((dispatch_events ffnetD hasN qs cls url).length = 1 ∨
      dispatch_events ffnetD hasN qs cls url = []) ∧
    (dispatch_events ffnetD hasN qs cls url = [] ↔
      ∃ f, cls url = some f ∧ f.site = "ffnet" ∧ ffnetD = true ∧ hasN = false) := by
  intro ffnetD hasN qs cls url
  cases hcls : cls url with
  | none => simp [dispatch_events, hcls]
  | some f =>
    by_cases hov : f.site = "ffnet" ∧ ffnetD = true
    · cases hN : hasN with
      | false => simp [dispatch_events, hcls, hov]
      | true => simp [dispatch_events, hcls, hov]
    · constructor
      · left
        cases hr : route qs f.site with
        | none => simp [dispatch_events, hcls, if_neg hov, hr]
        | some q => simp [dispatch_events, hcls, if_neg hov, hr]
      · constructor
        · intro h
          cases hr : route qs f.site with
          | none =>
            have hd : dispatch_events ffnetD hasN qs cls url
                = [Event.logDropNoQueue f.site] := by
              simp [dispatch_events, hcls, if_neg hov, hr]
            rw [hd] at h
            cases h
          | some q =>
            have hd : dispatch_events ffnetD hasN qs cls url
                = [Event.enqueued q f] := by
              simp [dispatch_events, hcls, if_neg hov, hr]
            rw [hd] at h
            cases h
        · rintro ⟨g, hg, h1, h2, h3⟩
          injection hg with hfg
          subst hfg
          exact absurd ⟨h1, h2⟩ hov

/-- Claim C3: when the classified site is `"ffnet"`, the disable flag is
set and a notifier handle is present, the item is delivered to the
notifier with title `"New Fanfiction Download"`, body the normalized URL
and tag the site, and is placed on no queue — for every destination map,
including one holding a queue under the `"ffnet"` key. -/
theorem spec_C3 : ∀ (qs : Queues) (cls : String → Option FanficInfo)
    (url : String) (f : FanficInfo),
    cls url = some f → f.site = "ffnet" →
    dispatch_events true true qs cls url
      = [Event.notified "New Fanfiction Download" f.url f.site] := by
  intro qs cls url f hcls hsite
  simp [dispatch_events, hcls, hsite]

theorem spec_C3_witness :
    dispatch_events true true [("ffnet", some 7)]
      (fun u => some (FanficInfo.mk "ffnet" u))
      "https://www.fanfiction.net/s/2"
      = [Event.notified "New Fanfiction Download"
          "https://www.fanfiction.net/s/2" "ffnet"] :=
  spec_C3 [("ffnet", some 7)] (fun u => some (FanficInfo.mk "ffnet" u))
    "https://www.fanfiction.net/s/2"
    (FanficInfo.mk "ffnet" "https://www.fanfiction.net/s/2") rfl rfl

/-- Claim C4: for an item the override branch does not take, a site whose
key holds a genuine sink receives the item on that sink alone (never on
`"other"`); a site absent from the map falls back to a genuine `"other"`
sink; and when both keys are absent the drop is logged and nothing is
enqueued. -/
theorem spec_C4 : ∀ (ffnetD hasN : Bool) (qs : Queues)
    (cls : String → Option FanficInfo) (url : String) (f : FanficInfo),
    cls url = some f → ¬(f.site = "ffnet" ∧ ffnetD = true) →
    (∀ q : Nat, qget qs f.site = some (some q) →
      dispatch_events ffnetD hasN qs cls url = [Event.enqueued q f]) ∧
    (∀ q : Nat, qget qs f.site = none → qget qs "other" = some (some q) →
      dispatch_events ffnetD hasN qs cls url = [Event.enqueued q f]) ∧
    (qget qs f.site = none → qget qs "other" = none →
      dispatch_events ffnetD hasN qs cls url
        = [Event.logDropNoQueue f.site]) := by
  intro ffnetD hasN qs cls url f hcls hov
  refine ⟨?_, ?_, ?_⟩
  · intro q hq
    have hr : route qs f.site = some q := by simp [route, qtruthy, hq]
    simp [dispatch_events, hcls, if_neg hov, hr]
  · intro q hq hother
    have hr : route qs f.site = some q := by
      simp [route, qtruthy, hq, hother]
    simp [dispatch_events, hcls, if_neg hov, hr]
  · intro hq hother
    have hr : route qs f.site = none := by
      simp [route, qtruthy, hq, hother]
    simp [dispatch_events, hcls, if_neg hov, hr]

theorem spec_C4_witness :
    dispatch_events false true
      [("archiveofourown.org", some 1), ("other", some 2)]
      (fun u => some (FanficInfo.mk "archiveofourown.org" u)) "u"
      = [Event.enqueued 1 (FanficInfo.mk "archiveofourown.org" "u")] :=
  (spec_C4 false true [("archiveofourown.org", some 1), ("other", some 2)]
    (fun u => some (FanficInfo.mk "archiveofourown.org" u)) "u"
    (FanficInfo.mk "archiveofourown.org" "u") rfl (by decide)).1 1 (by decide)

/-- Claim C10: the queue lookup is by truthiness of the stored value, not
by key presence — a site key storing a falsy value is treated as missing:
the item falls back to a genuine `"other"` sink when one exists, and is
drop-logged when `"other"` is absent or also falsy; nothing is enqueued
under the falsy value and no exception is raised. -/
theorem spec_C10 : ∀ (ffnetD hasN : Bool) (qs : Queues)
    (cls : String → Option FanficInfo) (url : String) (f : FanficInfo),
    cls url = some f → ¬(f.site = "ffnet" ∧ ffnetD = true) →
    qget qs f.site = some none →
    (∀ q : Nat, qtruthy qs "other" = some q →
      dispatch_events ffnetD hasN qs cls url = [Event.enqueued q f]) ∧
    (qtruthy qs "other" = none →
      dispatch_events ffnetD hasN qs cls url
        = [Event.logDropNoQueue f.site]) := by
  intro ffnetD hasN qs cls url f hcls hov hfalsy
  refine ⟨?_, ?_⟩
  · intro q hother
    have hts : qtruthy qs f.site = none := by simp [qtruthy, hfalsy]
    have hr : route qs f.site = some q := by simp [route, hts, hother]
    simp [dispatch_events, hcls, if_neg hov, hr]
  · intro hother
    have hts : qtruthy qs f.site = none := by simp [qtruthy, hfalsy]
    have hr : route qs f.site = none := by simp [route, hts, hother]
    simp [dispatch_events, hcls, if_neg hov, hr]

theorem spec_C10_witness :
    dispatch_events false true [("siteA", none), ("other", some 4)]
      (fun u => some (FanficInfo.mk "siteA" u)) "u"
      = [Event.enqueued 4 (FanficInfo.mk "siteA" "u")] :=
  (spec_C10 false true [("siteA", none), ("other", some 4)]
    (fun u => some (FanficInfo.mk "siteA" u)) "u"
    (FanficInfo.mk "siteA" "u") rfl (by decide) (by decide)).1 4 (by decide)

/-- Claim C9: within one cycle the trace of side effects is the
concatenation, in batch order, of the per-URL event blocks, so the
deliveries (notifications and enqueues) of earlier URLs precede those of
later URLs; in particular the subsequence of deliveries equals the
per-URL deliveries concatenated in the order the extractor produced the
URLs. -/
theorem spec_C9 : ∀ (ffnetD hasN : Bool) (qs : Queues)
    (cls : String → Option FanficInfo) (us vs : List String) (u : String),
    cycle_trace ffnetD hasN qs cls (us ++ vs)
      = cycle_trace ffnetD hasN qs cls us ++ cycle_trace ffnetD hasN qs cls vs ∧
    cycle_trace ffnetD hasN qs cls [u] = dispatch_events ffnetD hasN qs cls u ∧
    (cycle_trace ffnetD hasN qs cls (us ++ vs)).filter isDelivery
      = (us ++ vs).flatMap
          (fun w => (dispatch_events ffnetD hasN qs cls w).filter isDelivery) := by
  intro ffnetD hasN qs cls us vs u
  refine ⟨?_, ?_, ?_⟩
  · simp [cycle_trace_eq]
  · simp [cycle_trace_eq]
  · rw [cycle_trace_eq]
    induction (us ++ vs) with
    | nil => simp
    | cons w ws ih => simp [List.flatMap_cons, List.filter_append, ih]

/-- Claim C7: no exception inside a poll cycle escapes the loop — a cycle
whose extraction raises contributes only the caught-and-logged cycle
error and an empty batch, a successful cycle contributes the dispatch
trace of its batch (per-item exceptions already being caught inside
`dispatch_events`), and the unrolled loop completes every cycle of any
finite input stream and proceeds to the next, with no terminal state.
The always-running loop is modelled by unrolling it over an arbitrary
finite stream of per-cycle extraction results. -/
theorem spec_C7 : ∀ (ffnetD hasN : Bool) (qs : Queues)
    (cls : String → Option FanficInfo)
    (inputs : List (Except Unit (List String))) (e : Unit) (urls : List String),
    (folder_watcher_run ffnetD hasN qs cls inputs).length = inputs.length ∧
    folder_watcher_run ffnetD hasN qs cls inputs
      = inputs.map (watcher_cycle ffnetD hasN qs cls) ∧
    watcher_cycle ffnetD hasN qs cls (Except.error e) = [Event.logCycleError] ∧
    watcher_cycle ffnetD hasN qs cls (Except.ok urls)
      = cycle_trace ffnetD hasN qs cls urls := by
  intro ffnetD hasN qs cls inputs e urls
  have hmap : ∀ l : List (Except Unit (List String)),
      folder_watcher_run ffnetD hasN qs cls l
        = l.map (watcher_cycle ffnetD hasN qs cls) := by
    intro l
    induction l with
    | nil => rfl
    | cons x xs ih => simp [folder_watcher_run, ih]
  refine ⟨?_, hmap inputs, rfl, rfl⟩
  rw [hmap inputs]
  simp

/-- Claim C8: given a successfully loaded configuration, construction
fails iff the folder path is empty, and in that case the filesystem is
untouched; with a non-empty path construction succeeds — also when the
directory already exists — storing the three configured fields and
creating the directory and all its ancestors, and running construction a
second time on the resulting filesystem changes nothing. -/
theorem spec_C8 : ∀ (cfg : FWConfig) (st : FWState),
    ((FolderWatcherInfo.init cfg st).1
        = Except.error "folder_path must be specified in configuration"
      ↔ cfg.folder_path = "") ∧
    (cfg.folder_path = "" → (FolderWatcherInfo.init cfg st).2 = st) ∧
    (cfg.folder_path ≠ "" →
      (FolderWatcherInfo.init cfg st).1
        = Except.ok
            (FolderWatcherInfo.mk cfg.folder_path cfg.sleep_time
              cfg.ffnet_disable) ∧
      ∀ d ∈ dirPrefixes (pathComponents cfg.folder_path),
        d ∈ (FolderWatcherInfo.init cfg st).2.dirs) ∧
    (FolderWatcherInfo.init cfg ((FolderWatcherInfo.init cfg st).2)).2
      = (FolderWatcherInfo.init cfg st).2 := by
  intro cfg st
  by_cases hp : cfg.folder_path = ""
  · refine ⟨by simp [FolderWatcherInfo.init, hp], ?_, ?_, ?_⟩
    · intro _; simp [FolderWatcherInfo.init, hp]
    · intro h; exact absurd hp h
    · simp [FolderWatcherInfo.init, hp]
  · refine ⟨by simp [FolderWatcherInfo.init, hp], ?_, ?_, ?_⟩
    · intro h; exact absurd h hp
    · intro _
      refine ⟨by simp [FolderWatcherInfo.init, hp], ?_⟩
      intro d hd
      simp only [FolderWatcherInfo.init, if_neg hp]
      exact mkdir_parents_creates st cfg.folder_path d hd
    · simp only [FolderWatcherInfo.init, if_neg hp]
      exact mkdir_parents_idem st cfg.folder_path

theorem spec_C8_witness :
    (FolderWatcherInfo.init (FWConfig.mk "fanfic/urls" 60 true)
        (FWState.mk [])).1
      = Except.ok (FolderWatcherInfo.mk "fanfic/urls" 60 true) ∧
    (FolderWatcherInfo.init (FWConfig.mk "fanfic/urls" 60 true)
        ((FolderWatcherInfo.init (FWConfig.mk "fanfic/urls" 60 true)
          (FWState.mk [])).2)).2
      = (FolderWatcherInfo.init (FWConfig.mk "fanfic/urls" 60 true)
          (FWState.mk [])).2 :=
  ⟨((spec_C8 (FWConfig.mk "fanfic/urls" 60 true) (FWState.mk [])).2.2.1
      (by decide)).1,
    (spec_C8 (FWConfig.mk "fanfic/urls" 60 true) (FWState.mk [])).2.2.2⟩
